import Mathlib

/-!
Verification of the flashback-ai client against its specification.

The development shallowly embeds the parts of the code the claims are
about:

* `src/services/rateLimitService.ts` — the client-side rate gauge
  (`checkLimit`, `recordGeneration`, `getHistory`), over an explicit
  local-storage cell holding the raw stored text;
* `src/App.tsx` — the generation orchestration (`handleGenerateClick`,
  `handleRegenerateDecade`, the per-decade completion update), the album
  download guard (`handleDownloadAlbum`), the history auto-save upsert,
  and the legacy-history migration (`initHistory`).

JavaScript records (`Record<string, GeneratedImage>`) are embedded as
association lists with the object-spread update semantics (an existing
key keeps its position, a new key is appended).  Machine numbers are
embedded as `Int` (all quantities involved are integral).
-/

/-! ## JSON values and parsing

The rate-limit service stores `JSON.stringify`-ed arrays of timestamps
and reads them back with `JSON.parse`.  `Json` models the JavaScript
value space restricted to the shapes this service can encounter
(null, integer numbers, arrays of numbers); `jsonParse` models
`JSON.parse` on that fragment: the texts the service itself writes
(comma-separated decimal arrays), bare decimal numerals and `null`.
Every other text is treated as unparsable. -/

inductive Json where
  | null : Json
  | num (n : Int) : Json
  | arr (items : List Int) : Json
deriving DecidableEq, Repr

/-- Reads a non-empty all-digit character list as a decimal number. -/
def decDigitsAux : List Char → Nat → Option Nat
  | [], acc => some acc
  | c :: cs, acc =>
      if c.isDigit then decDigitsAux cs (acc * 10 + (c.toNat - 48)) else none

def decNat? : List Char → Option Nat
  | [] => none
  | cs => decDigitsAux cs 0

/-- Splits a character list at every comma. -/
def splitCommasAux : List Char → List Char → List (List Char)
  | [], acc => [acc.reverse]
  | c :: cs, acc =>
      if c = ',' then acc.reverse :: splitCommasAux cs []
      else splitCommasAux cs (c :: acc)

def splitCommas (cs : List Char) : List (List Char) := splitCommasAux cs []

def jsonParse (s : String) : Option Json :=
  let cs := s.data
  if cs = [ 'n', 'u', 'l', 'l' ] then some Json.null
  else
    match decNat? cs with
    | some n => some (Json.num n)
    | none =>
      match cs with
      | '[' :: rest =>
        if rest.getLast? = some ']' then
          let inner := rest.dropLast
          if inner = [] then some (Json.arr [])
          else
            match (splitCommas inner).mapM decNat? with
            | some ns => some (Json.arr (ns.map Int.ofNat))
            | none => none
        else none
      | _ => none

/-! ## Rate-limit service (`src/services/rateLimitService.ts`)

The persisted rate log is the single local-storage cell under the key
`generation_history`, embedded as `Option String` (absent key = `none`).
Reads and writes thread the cell explicitly. -/

/-- Embeds `localStorage.getItem(STORAGE_KEY)`: a read that returns the cell. -/
def getItem (s : Option String) : Option String × Option String := (s, s)

/-- Embeds `localStorage.setItem(STORAGE_KEY, v)`: overwrites the cell. -/
def setItem (v : String) (_s : Option String) : Option String := some v

/-- Embeds `RateLimitService.getHistory` on an already-read stored value:
`return stored ? JSON.parse(stored) : []`, with a catch-all returning
`[]` when parsing throws.  A falsy stored value (absent key or empty
string) yields `[]`; a parse failure is caught and yields `[]`; any
successfully parsed value is returned as-is, whether or not it is an
array. -/
def getHistory (stored : Option String) : Json :=
  match stored with
  | none => Json.arr []
  | some s =>
    if s = "" then Json.arr []
    else
      match jsonParse s with
      | some j => j
      | none => Json.arr []

/-- Embeds `RateLimitService.getHistory` as a storage operation: one `getItem`
read, no write. -/
def getHistoryS (s : Option String) : Json × Option String :=
  let (v, s1) := getItem s
  (getHistory v, s1)

/-- Computes `limitMinutes * 60 * 1000`. -/
def windowMsOf (limitMinutes : Int) : Int := limitMinutes * 60 * 1000

/-- Embeds `history.filter(ts => now - ts < windowMs)`. -/
def activeOf (history : List Int) (now windowMs : Int) : List Int :=
  history.filter (fun ts => now - ts < windowMs)

/-- Computes `Math.ceil(a / b)` for integral `a` and positive integral `b`. -/
def ceilDiv (a b : Int) : Int := -((-a).ediv b)

structure CheckResult where
  allowed : Bool
  remaining : Int
  resetInMinutes : Int
  resetAt : Int
  maxPhotos : Int
  limitMinutes : Int
deriving DecidableEq, Repr

/-- Embeds `RateLimitService.checkLimit` on an already-parsed timestamp log.
`maxPhotos` and `limitMinutes` are the two environment settings
(`VITE_MAX_PHOTOS`, `VITE_LIMIT_MINUTES`). -/
def checkLimit (history : List Int) (requestedCount now maxPhotos limitMinutes : Int) :
    CheckResult :=
  let windowMs := windowMsOf limitMinutes
  let activeHistory := activeOf history now windowMs
  let currentCount : Int := activeHistory.length
  let allowed : Bool := decide (currentCount + requestedCount ≤ maxPhotos)
  let remaining : Int := max 0 (maxPhotos - currentCount)
  if allowed = false ∧ activeHistory ≠ [] then
    let oldestRelevant := activeHistory.headD 0
    let msUntilReset := windowMs - (now - oldestRelevant)
    { allowed := allowed, remaining := remaining,
      resetInMinutes := ceilDiv msUntilReset 60000,
      resetAt := oldestRelevant + windowMs,
      maxPhotos := maxPhotos, limitMinutes := limitMinutes }
  else
    { allowed := allowed, remaining := remaining, resetInMinutes := 0,
      resetAt := 0, maxPhotos := maxPhotos, limitMinutes := limitMinutes }

/-- Embeds `RateLimitService.checkLimit` as a storage operation: it performs the
`getHistory` read and computes; it never calls `setItem`.  When the
stored value is not an array, `history.filter` would throw in the
source, so no result is produced (`none`). -/
def checkLimitS (requestedCount now maxPhotos limitMinutes : Int) (s : Option String) :
    Option CheckResult × Option String :=
  let (j, s1) := getHistoryS s
  match j with
  | Json.arr history => (some (checkLimit history requestedCount now maxPhotos limitMinutes), s1)
  | _ => (none, s1)

/-- Embeds `JSON.stringify` of a number array: `[a,b,c]` with no spaces. -/
def stringifyInts (l : List Int) : String :=
  "[" ++ String.intercalate "," (l.map toString) ++ "]"

/-- Embeds `RateLimitService.recordGeneration` as a storage operation: read the
log, push `now` once per generated photo, drop entries outside the
window, and write the result back.  When the stored value is not an
array, `history.push` would throw in the source and nothing is
written. -/
def recordGeneration (count : Nat) (now limitMinutes : Int) (s : Option String) :
    Option String :=
  let (j, s1) := getHistoryS s
  match j with
  | Json.arr history =>
      let pushed := history ++ List.replicate count now
      let windowMs := windowMsOf limitMinutes
      let filteredHistory := pushed.filter (fun ts => now - ts < windowMs)
      setItem (stringifyInts filteredHistory) s1
  | _ => s1

/-! ## Application state (`src/App.tsx`)

`Record<string, GeneratedImage>` is embedded as an association list with
JavaScript object semantics: `\x7b...prev, [k]: v\x7d` keeps an existing
key at its position and appends a fresh key at the end. -/

inductive ImageStatus where
  | pending
  | done
  | error
deriving DecidableEq, Repr

structure GeneratedImage where
  status : ImageStatus
  url : Option String := none
  error : Option String := none
deriving DecidableEq, Repr

abbrev GenMap := List (String × GeneratedImage)

/-- Embeds `m[k]` on a JavaScript record: the value at the first (only) entry
with key `k`. -/
def lookupKey (m : GenMap) (k : String) : Option GeneratedImage :=
  (m.find? (fun p => p.1 == k)).map Prod.snd

/-- Embeds `\x7b...prev, [k]: v\x7d`: replace the value at an existing key,
append a missing key. -/
def setKey (m : GenMap) (k : String) (v : GeneratedImage) : GenMap :=
  if m.any (fun p => p.1 == k) then
    m.map (fun p => if p.1 == k then (k, v) else p)
  else m ++ [(k, v)]

/-- Outcome of one `generateDecadeImage` call: a result url on success,
the caught error message on failure. -/
def outcomeEntry : Except String String → GeneratedImage
  | Except.ok resultUrl => { status := ImageStatus.done, url := some resultUrl }
  | Except.error errorMessage => { status := ImageStatus.error, error := some errorMessage }

/-- The completion handler of `processDecade` inside
`handleGenerateClick`: on success it stores `\x7bstatus: 'done', url\x7d`
at that decade, on failure `\x7bstatus: 'error', error\x7d`; either way a
single object-spread update at that decade's key. -/
def processDecadeUpdate (m : GenMap) (decade : String) (r : Except String String) : GenMap :=
  setKey m decade (outcomeEntry r)

inductive AppStage where
  | idle
  | imageUploaded
  | generating
  | resultsShown
deriving DecidableEq, Repr

/-- The `App` component state touched by the claims.  The source field
`imageAspectRatio` is embedded as `imageAspect`. -/
structure SessionState where
  uploadedImage : Option String
  imageAspect : Rat
  generatedImages : GenMap
  isLoading : Bool
  appState : AppStage
  selectedDecades : List String
  currentSessionId : Option String
deriving DecidableEq, Repr

/-- Embeds `handleGenerateClick`: guard on a missing image or empty selection;
otherwise seed every selected decade with a pending entry, run one
`processDecade` per selected decade (`gen` is the outcome of that
decade's `generateDecadeImage` call), and finish with
`isLoading = false`, `appState = 'results-shown'`.  The completion
updates commute across decades (each touches only its own key), so the
final map is their fold in list order. -/
def handleGenerateClick (gen : String → Except String String) (now : Int)
    (s : SessionState) : SessionState :=
  if s.uploadedImage = none ∨ s.selectedDecades = [] then s
  else
    let initialImages : GenMap :=
      s.selectedDecades.foldl
        (fun m decade => setKey m decade { status := ImageStatus.pending }) []
    let finalImages : GenMap :=
      s.selectedDecades.foldl
        (fun m decade => processDecadeUpdate m decade (gen decade)) initialImages
    { s with
      isLoading := false,
      appState := AppStage.resultsShown,
      currentSessionId := some (toString now),
      generatedImages := finalImages }

/-- Embeds `handleRegenerateDecade`: return unchanged without an image or while
that decade is already pending; otherwise set the decade pending and run
one generation call for it, storing the outcome at that key. -/
def handleRegenerateDecade (gen : String → Except String String) (decade : String)
    (s : SessionState) : SessionState :=
  if s.uploadedImage = none then s
  else if (lookupKey s.generatedImages decade).map GeneratedImage.status =
      some ImageStatus.pending then s
  else
    let afterPending := setKey s.generatedImages decade { status := ImageStatus.pending }
    { s with generatedImages := processDecadeUpdate afterPending decade (gen decade) }

/-- JavaScript truthiness of the optional `url` field (absent and `""`
are falsy). -/
def truthyUrl : Option String → Bool
  | none => false
  | some u => u != ""

/-- Embeds `Object.entries(generatedImages).filter(done && url).reduce(...)`:
the decade-to-url mapping of the completed entries. -/
def albumImageData (m : GenMap) : List (String × String) :=
  (m.filter (fun p => p.2.status == ImageStatus.done && truthyUrl p.2.url)).map
    (fun p => (p.1, p.2.url.getD ""))

/-- Modelled from the spec: `createAlbumPage` (src/lib/albumUtils is not
in the sources) lays the completed per-decade images out on a single
canvas and returns one composed album image for download. -/
def createAlbumPage (imageData : List (String × String)) : String :=
  String.intercalate ";" (imageData.map (fun p => p.1 ++ "=" ++ p.2))

inductive DownloadResult where
  | alerted
  | album (dataUrl : String)
deriving DecidableEq, Repr

/-- Embeds `handleDownloadAlbum`: abort with a user-facing alert when the
completed entries number fewer than the selected decades
(`Object.keys(imageData).length < selectedDecades.length`); otherwise
compose and download exactly one album image. -/
def handleDownloadAlbum (s : SessionState) : DownloadResult :=
  let imageData := albumImageData s.generatedImages
  if ((imageData.map Prod.fst).dedup).length < s.selectedDecades.length then
    DownloadResult.alerted
  else
    DownloadResult.album (createAlbumPage imageData)

/-! ## History store (`src/App.tsx` init/auto-save, dbService modelled)

`dbService` (src/services/dbService.ts) is not among the sources; its
operations are modelled from the spec's history-store contract. -/

/-- One history record as persisted per session.  The source field
`aspectRatio` is embedded as `aspectVal`. -/
structure HistoryItem where
  id : String
  timestamp : Int
  originalImage : String
  aspectVal : Rat
  selectedDecades : List String
  generatedImages : GenMap
  appState : AppStage
deriving DecidableEq, Repr

/-- Modelled from the spec: `dbService.saveHistoryItem` upserts a session
record keyed by its session identifier. -/
def saveHistoryItem (db : List HistoryItem) (item : HistoryItem) : List HistoryItem :=
  (db.filter (fun it => it.id != item.id)) ++ [item]

/-- Inserts a record in front of the first strictly-older one. -/
def insertNewest (item : HistoryItem) : List HistoryItem → List HistoryItem
  | [] => [item]
  | x :: xs =>
      if x.timestamp ≤ item.timestamp then item :: x :: xs
      else x :: insertNewest item xs

/-- Modelled from the spec: `dbService.getAllHistory` lists all records
ordered newest-first. -/
def getAllHistory (db : List HistoryItem) : List HistoryItem :=
  db.foldr insertNewest []

/-- The state `initHistory` touches: the legacy local-storage record
under `flashback_history` (already parsed; `none` = absent), the keyed
store, and the in-memory history list. -/
structure AppInitState where
  legacy : Option (List HistoryItem)
  db : List HistoryItem
  historyUI : List HistoryItem
deriving DecidableEq, Repr

/-- Embeds `initHistory` (the mount effect): if a legacy record exists, save
each of its entries into the keyed store and remove the legacy copy;
then load the keyed store into the in-memory list. -/
def initHistory (s : AppInitState) : AppInitState :=
  match s.legacy with
  | some legacyHistory =>
      let db := legacyHistory.foldl saveHistoryItem s.db
      { legacy := none, db := db, historyUI := getAllHistory db }
  | none => { s with historyUI := getAllHistory s.db }

/-- The auto-save effect's in-memory upsert:
`[newItem, ...prev.filter(item => item.id !== currentSessionId)].slice(0, 20)`. -/
def upsertHistory (prev : List HistoryItem) (newItem : HistoryItem) : List HistoryItem :=
  (newItem :: prev.filter (fun item => item.id != newItem.id)).take 20

/-- Whether a JavaScript value is an array. -/
def isArr : Json → Bool
  | Json.arr _ => true
  | _ => false

/-- A concrete history record for witnesses. -/
def sampleItem1 : HistoryItem :=
  { id := "a", timestamp := 5, originalImage := "img1", aspectVal := 1,
    selectedDecades := ["1950s"], generatedImages := [],
    appState := AppStage.generating }

/-- A later save under the same identifier as `sampleItem1`. -/
def sampleItem2 : HistoryItem :=
  { id := "a", timestamp := 6, originalImage := "img2", aspectVal := 1,
    selectedDecades := ["1950s"], generatedImages := [],
    appState := AppStage.resultsShown }

/-- A start-up state holding a one-entry legacy record. -/
def sampleInitState : AppInitState :=
  { legacy := some [sampleItem1], db := [], historyUI := [] }

/-! ## Lemmas about record updates -/

theorem setKey_cons (pk : String) (pv : GeneratedImage) (t : GenMap) (k : String)
    (v : GeneratedImage) :
    setKey ((pk, pv) :: t) k v =
      if pk == k then (k, v) :: t.map (fun q => if q.1 == k then (k, v) else q)
      else (pk, pv) :: setKey t k v := by
  by_cases hp : pk = k
  · subst hp; simp [setKey]
  · by_cases ht : t.any (fun q => q.1 == k) <;> simp [setKey, hp, ht]

theorem lookupKey_setKey_self (m : GenMap) (k : String) (v : GeneratedImage) :
    lookupKey (setKey m k v) k = some v := by
  induction m with
  | nil => simp [setKey, lookupKey]
  | cons p t ih =>
    obtain ⟨pk, pv⟩ := p
    rw [setKey_cons]
    by_cases hp : pk = k
    · simp [hp, lookupKey, List.find?_cons]
    · simpa [lookupKey, List.find?_cons, hp] using ih

theorem find?_map_setKey (t : GenMap) (k k' : String) (v : GeneratedImage)
    (h : k' ≠ k) :
    (t.map (fun q => if q.1 == k then (k, v) else q)).find? (fun p => p.1 == k') =
      t.find? (fun p => p.1 == k') := by
  rw [List.find?_map]
  have hfun : ((fun p : String × GeneratedImage => p.1 == k') ∘
      (fun q => if q.1 == k then (k, v) else q)) =
      (fun q : String × GeneratedImage => q.1 == k') := by
    funext q
    by_cases hq : q.1 = k
    · simp [hq]
    · simp [hq]
  rw [hfun]
  cases hf : t.find? (fun q : String × GeneratedImage => q.1 == k') with
  | none => rfl
  | some q =>
    have hq := List.find?_some hf
    have hqk : ¬q.1 = k := by
      rw [beq_iff_eq.mp hq]; exact h
    simp [hqk]

theorem find?_append_single (l : GenMap) (k k' : String) (v : GeneratedImage)
    (h : k' ≠ k) :
    (l ++ [(k, v)]).find? (fun p => p.1 == k') = l.find? (fun p => p.1 == k') := by
  induction l with
  | nil => simp [List.find?_cons, Ne.symm h]
  | cons x xs ih =>
    obtain ⟨xk, xv⟩ := x
    by_cases hx : xk = k'
    · simp [List.find?_cons, hx]
    · simpa [List.find?_cons, hx] using ih

theorem lookupKey_setKey_ne (m : GenMap) (k k' : String) (v : GeneratedImage)
    (h : k' ≠ k) :
    lookupKey (setKey m k v) k' = lookupKey m k' := by
  unfold setKey
  by_cases hm : m.any (fun p => p.1 == k)
  · rw [if_pos hm]
    unfold lookupKey
    rw [find?_map_setKey m k k' v h]
  · rw [if_neg hm]
    unfold lookupKey
    rw [find?_append_single m k k' v h]

theorem lookupKey_foldl_setKey_not_mem (f : String → GeneratedImage) (l : List String)
    (m : GenMap) (d : String) (h : d ∉ l) :
    lookupKey (l.foldl (fun acc x => setKey acc x (f x)) m) d = lookupKey m d := by
  induction l generalizing m with
  | nil => rfl
  | cons x xs ih =>
    simp only [List.foldl_cons]
    have hdx : d ≠ x := fun e => h (e ▸ List.mem_cons_self x xs)
    rw [ih (setKey m x (f x)) (fun hm => h (List.mem_cons_of_mem x hm)),
      lookupKey_setKey_ne m x d (f x) hdx]

theorem lookupKey_foldl_setKey_mem (f : String → GeneratedImage) (l : List String)
    (m : GenMap) (d : String) (h : d ∈ l) :
    lookupKey (l.foldl (fun acc x => setKey acc x (f x)) m) d = some (f d) := by
  induction l generalizing m with
  | nil => cases h
  | cons x xs ih =>
    simp only [List.foldl_cons]
    by_cases hm : d ∈ xs
    · exact ih (setKey m x (f x)) hm
    · have hdx : d = x := by
        rcases List.mem_cons.mp h with h1 | h2
        · exact h1
        · exact absurd h2 hm
      subst hdx
      rw [lookupKey_foldl_setKey_not_mem f xs (setKey m d (f d)) d hm,
        lookupKey_setKey_self m d (f d)]

/-! ## Lemmas about checkLimit -/

theorem checkLimit_allowed_eq (history : List Int)
    (requestedCount now maxPhotos limitMinutes : Int) :
    (checkLimit history requestedCount now maxPhotos limitMinutes).allowed =
      decide (((activeOf history now (windowMsOf limitMinutes)).length : Int) +
        requestedCount ≤ maxPhotos) := by
  unfold checkLimit
  dsimp only
  split <;> rfl

theorem checkLimit_reset_eq (history : List Int)
    (requestedCount now maxPhotos limitMinutes : Int) :
    (checkLimit history requestedCount now maxPhotos limitMinutes).resetInMinutes =
      if decide (((activeOf history now (windowMsOf limitMinutes)).length : Int) +
            requestedCount ≤ maxPhotos) = false ∧
          activeOf history now (windowMsOf limitMinutes) ≠ [] then
        ceilDiv
          (windowMsOf limitMinutes -
            (now - (activeOf history now (windowMsOf limitMinutes)).headD 0)) 60000
      else 0 := by
  unfold checkLimit
  dsimp only
  split <;> rename_i hc <;> simp [hc]

/-! ## Claims about the rate gauge -/

/-- C3: for every stored timestamp log, current time, window length,
ceiling and requested count, `checkLimit` reports `allowed = true` iff
the number of logged timestamps strictly younger than the window plus
the requested count is at most the ceiling. -/
theorem checkLimit_allowed_iff (history : List Int)
    (requestedCount now maxPhotos limitMinutes : Int) :
    (checkLimit history requestedCount now maxPhotos limitMinutes).allowed = true ↔
      ((activeOf history now (windowMsOf limitMinutes)).length : Int) +
        requestedCount ≤ maxPhotos := by
  rw [checkLimit_allowed_eq]
  simp

/-- C4 (counterexample): on the stored log `[900000, 800000]` at time
1000000 with a 5-minute window and ceiling 10, a request of 9 is not
allowed; both entries are active, the oldest active entry is 800000, yet
the code reports `resetInMinutes = 4`, the ceiling formula taken at the
*first* stored entry 900000, while the claim's formula at the oldest
active entry 800000 gives 2. -/
theorem checkLimit_reset_counterexample :
    (checkLimit [900000, 800000] 9 1000000 10 5).allowed = false ∧
    activeOf [900000, 800000] 1000000 (windowMsOf 5) = [900000, 800000] ∧
    (800000 : Int) < 900000 ∧
    (checkLimit [900000, 800000] 9 1000000 10 5).resetInMinutes = 4 ∧
    ceilDiv (windowMsOf 5 - (1000000 - 800000)) 60000 = 2 ∧
    (checkLimit [900000, 800000] 9 1000000 10 5).resetInMinutes ≠
      ceilDiv (windowMsOf 5 - (1000000 - 800000)) 60000 := by
  decide

/-- C4 (amended): on a chronologically ordered log (as `recordGeneration`
maintains, absent clock rollback), the first active entry is the oldest
active entry, and for a request that is not allowed with at least one
active entry, `resetInMinutes` is the rounded-up number of minutes until
that oldest active entry leaves the window; when the request is allowed,
`resetInMinutes` is 0. -/
theorem checkLimit_reset_sorted (history : List Int)
    (requestedCount now maxPhotos limitMinutes : Int)
    (hs : history.Sorted (· ≤ ·)) :
    ((checkLimit history requestedCount now maxPhotos limitMinutes).allowed = true →
      (checkLimit history requestedCount now maxPhotos limitMinutes).resetInMinutes = 0) ∧
    ((checkLimit history requestedCount now maxPhotos limitMinutes).allowed = false →
      activeOf history now (windowMsOf limitMinutes) ≠ [] →
      ∃ o, (activeOf history now (windowMsOf limitMinutes)).head? = some o ∧
        (∀ t ∈ activeOf history now (windowMsOf limitMinutes), o ≤ t) ∧
        (checkLimit history requestedCount now maxPhotos limitMinutes).resetInMinutes =
          ceilDiv (windowMsOf limitMinutes - (now - o)) 60000) := by
  have hsa : (activeOf history now (windowMsOf limitMinutes)).Sorted (· ≤ ·) :=
    hs.filter _
  constructor
  · intro ha
    rw [checkLimit_reset_eq]
    rw [checkLimit_allowed_eq] at ha
    rw [if_neg]
    rintro ⟨h1, _⟩
    rw [ha] at h1
    cases h1
  · intro ha hne
    rw [checkLimit_allowed_eq] at ha
    cases hactive : activeOf history now (windowMsOf limitMinutes) with
    | nil => exact absurd hactive hne
    | cons o rest =>
      refine ⟨o, rfl, ?_, ?_⟩
      · rw [hactive] at hsa
        intro t ht
        rcases List.mem_cons.mp ht with h1 | h2
        · exact le_of_eq h1.symm
        · exact (List.pairwise_cons.mp hsa).1 t h2
      · rw [checkLimit_reset_eq, if_pos ⟨ha, hne⟩, hactive]
        rfl

/-- C4 (witness): a concrete chronologically ordered log on which the
amended statement is instantiated. -/
theorem checkLimit_reset_sorted_witness :
    ∃ o, (activeOf [800000, 900000] 1000000 (windowMsOf 5)).head? = some o ∧
      (∀ t ∈ activeOf [800000, 900000] 1000000 (windowMsOf 5), o ≤ t) ∧
      (checkLimit [800000, 900000] 9 1000000 10 5).resetInMinutes =
        ceilDiv (windowMsOf 5 - (1000000 - o)) 60000 :=
  (checkLimit_reset_sorted [800000, 900000] 9 1000000 10 5 (by decide)).2
    (by decide) (by decide)

/-- C9: `checkLimit` (and the `getHistory` read it performs) leaves the
persisted rate-log cell unchanged for every stored value and request;
`recordGeneration` is the operation that writes it (shown at a concrete
state). -/
theorem checkLimit_readonly (requestedCount now maxPhotos limitMinutes : Int)
    (s : Option String) :
    (checkLimitS requestedCount now maxPhotos limitMinutes s).2 = s ∧
    (getHistoryS s).2 = s ∧
    recordGeneration 1 0 5 none ≠ none := by
  refine ⟨?_, rfl, by decide⟩
  unfold checkLimitS getHistoryS getItem
  dsimp only
  split <;> rfl

/-- C10 (counterexample): the stored text `"5"` parses successfully, so
`getHistory` returns the number 5 as-is — not a list. -/
theorem getHistory_nonlist :
    getHistory (some "5") = Json.num 5 ∧ isArr (getHistory (some "5")) = false := by
  decide

/-- C10 (amended): `getHistory` never throws; on a missing key, an
empty stored string, or unparsable stored data it returns the empty
list; on parsable stored data it returns the parsed value as-is, which
is a list exactly when the stored text is a JSON array. -/
theorem getHistory_total :
    getHistory none = Json.arr [] ∧
    getHistory (some "") = Json.arr [] ∧
    (∀ s : String, jsonParse s = none → getHistory (some s) = Json.arr []) ∧
    (∀ (s : String) (j : Json), jsonParse s = some j → s ≠ "" →
      getHistory (some s) = j) := by
  refine ⟨rfl, rfl, ?_, ?_⟩
  · intro s hp
    unfold getHistory
    dsimp only
    by_cases hs : s = ""
    · rw [if_pos hs]
    · rw [if_neg hs, hp]
  · intro s j hp hs
    unfold getHistory
    dsimp only
    rw [if_neg hs, hp]

/-- C10 (witness): the amended statement at the unparsable text `"oops"`
and at the array text `"[1,2]"`. -/
theorem getHistory_total_witness :
    getHistory (some "oops") = Json.arr [] ∧
    getHistory (some "[1,2]") = Json.arr [1, 2] :=
  ⟨getHistory_total.2.2.1 "oops" (by decide),
   getHistory_total.2.2.2 "[1,2]" (Json.arr [1, 2]) (by decide) (by decide)⟩

/-! ## Claims about the generation orchestration -/

/-- C1: for every non-empty selection, once `handleGenerateClick`
completes, every selected decade's result entry is terminal —
`done` or `error`, never `pending`. -/
theorem handleGenerateClick_terminal (gen : String → Except String String) (now : Int)
    (s : SessionState) (d : String)
    (himg : s.uploadedImage ≠ none) (hne : s.selectedDecades ≠ [])
    (hd : d ∈ s.selectedDecades) :
    ∃ e, lookupKey (handleGenerateClick gen now s).generatedImages d = some e ∧
      (e.status = ImageStatus.done ∨ e.status = ImageStatus.error) ∧
      e.status ≠ ImageStatus.pending := by
  refine ⟨outcomeEntry (gen d), ?_, ?_, ?_⟩
  · unfold handleGenerateClick
    rw [if_neg (by
      rintro (h1 | h2)
      · exact himg h1
      · exact hne h2)]
    dsimp only
    simp only [processDecadeUpdate]
    exact lookupKey_foldl_setKey_mem (fun x => outcomeEntry (gen x))
      s.selectedDecades _ d hd
  · cases hg : gen d <;> simp [outcomeEntry]
  · cases hg : gen d <;> simp [outcomeEntry]

/-- C1 (witness): a two-decade selection where one call succeeds and the
other fails; the failing decade's entry is terminal. -/
theorem handleGenerateClick_terminal_witness :
    ∃ e, lookupKey ((handleGenerateClick
        (fun d => if d = "1950s" then Except.ok "u" else Except.error "boom") 7
        { uploadedImage := some "img", imageAspect := 1, generatedImages := [],
          isLoading := false, appState := AppStage.imageUploaded,
          selectedDecades := ["1950s", "1960s"], currentSessionId := none }).generatedImages)
        "1960s" = some e ∧
      (e.status = ImageStatus.done ∨ e.status = ImageStatus.error) ∧
      e.status ≠ ImageStatus.pending :=
  handleGenerateClick_terminal
    (fun d => if d = "1950s" then Except.ok "u" else Except.error "boom") 7
    { uploadedImage := some "img", imageAspect := 1, generatedImages := [],
      isLoading := false, appState := AppStage.imageUploaded,
      selectedDecades := ["1950s", "1960s"], currentSessionId := none }
    "1960s" (by decide) (by decide) (by decide)

/-- C2: invoking `handleRegenerateDecade` on a decade whose current
entry is `pending` returns with the whole session state unchanged. -/
theorem handleRegenerateDecade_pending_noop (gen : String → Except String String)
    (decade : String) (s : SessionState) (e : GeneratedImage)
    (hl : lookupKey s.generatedImages decade = some e)
    (hp : e.status = ImageStatus.pending) :
    handleRegenerateDecade gen decade s = s := by
  unfold handleRegenerateDecade
  by_cases hu : s.uploadedImage = none
  · rw [if_pos hu]
  · rw [if_neg hu, if_pos (by rw [hl]; simp [hp])]

/-- C2 (witness): the no-op on a concrete state with a pending decade. -/
theorem handleRegenerateDecade_pending_noop_witness :
    handleRegenerateDecade (fun _ => Except.ok "u") "1950s"
      { uploadedImage := some "img", imageAspect := 1,
        generatedImages := [("1950s", { status := ImageStatus.pending })],
        isLoading := true, appState := AppStage.generating,
        selectedDecades := ["1950s"], currentSessionId := some "1" } =
      { uploadedImage := some "img", imageAspect := 1,
        generatedImages := [("1950s", { status := ImageStatus.pending })],
        isLoading := true, appState := AppStage.generating,
        selectedDecades := ["1950s"], currentSessionId := some "1" } :=
  handleRegenerateDecade_pending_noop (fun _ => Except.ok "u") "1950s" _
    { status := ImageStatus.pending } (by decide) (by decide)

/-- C8: a decade's completion update — success or failure — changes only
that decade's entry; every other decade's entry is untouched. -/
theorem processDecade_frame (m : GenMap) (decade d' : String)
    (r : Except String String) (h : d' ≠ decade) :
    lookupKey (processDecadeUpdate m decade r) d' = lookupKey m d' :=
  lookupKey_setKey_ne m decade d' (outcomeEntry r) h

/-- C8 (witness): a failing call for one decade leaves a sibling's done
entry intact. -/
theorem processDecade_frame_witness :
    lookupKey (processDecadeUpdate
      [("1950s", { status := ImageStatus.done, url := some "u" }),
       ("1960s", { status := ImageStatus.pending })]
      "1960s" (Except.error "boom")) "1950s" =
      lookupKey
        [("1950s", { status := ImageStatus.done, url := some "u" }),
         ("1960s", { status := ImageStatus.pending })] "1950s" :=
  processDecade_frame _ "1960s" "1950s" (Except.error "boom") (by decide)

/-! ## Claims about the album download -/

/-- C5 (counterexample): with `1950s` selected but only a completed
entry for the unselected decade `1960s` present, `handleDownloadAlbum`
does not abort — it produces an album — although the selected decade
`1950s` has no result entry at all. -/
theorem handleDownloadAlbum_counterexample :
    handleDownloadAlbum
        { uploadedImage := some "img", imageAspect := 1,
          generatedImages := [("1960s", { status := ImageStatus.done, url := some "u" })],
          isLoading := false, appState := AppStage.resultsShown,
          selectedDecades := ["1950s"], currentSessionId := some "1" } ≠
      DownloadResult.alerted ∧
    lookupKey [("1960s", { status := ImageStatus.done, url := some "u" })] "1950s" =
      none := by
  constructor
  · intro h
    simp [handleDownloadAlbum, albumImageData, truthyUrl, List.filter] at h
  · decide

/-- C5 (amended): `handleDownloadAlbum` aborts with the user-facing
alert exactly when the number of decades holding a completed (`done`,
truthy url) entry is smaller than the number of selected decades; when
it is at least that number, it produces exactly one composed album
image.  (A completed entry for a non-selected decade counts toward the
guard, which is what the counterexample exploits.) -/
theorem handleDownloadAlbum_guard (s : SessionState) :
    (handleDownloadAlbum s = DownloadResult.alerted ↔
      ((albumImageData s.generatedImages).map Prod.fst).dedup.length <
        s.selectedDecades.length) ∧
    (s.selectedDecades.length ≤
        ((albumImageData s.generatedImages).map Prod.fst).dedup.length →
      handleDownloadAlbum s =
        DownloadResult.album (createAlbumPage (albumImageData s.generatedImages))) := by
  unfold handleDownloadAlbum
  dsimp only
  by_cases hc : ((albumImageData s.generatedImages).map Prod.fst).dedup.length <
      s.selectedDecades.length
  · rw [if_pos hc]
    refine ⟨⟨fun _ => hc, fun _ => rfl⟩, fun hle => absurd hc (not_lt.mpr hle)⟩
  · rw [if_neg hc]
    refine ⟨⟨fun h => ?_, fun h => absurd h hc⟩, fun _ => rfl⟩
    exact absurd h (by simp)

/-- C5 (witness): with both selected decades completed, the album is
produced. -/
theorem handleDownloadAlbum_guard_witness :
    handleDownloadAlbum
        { uploadedImage := some "img", imageAspect := 1,
          generatedImages :=
            [("1950s", { status := ImageStatus.done, url := some "u1" }),
             ("1960s", { status := ImageStatus.done, url := some "u2" })],
          isLoading := false, appState := AppStage.resultsShown,
          selectedDecades := ["1950s", "1960s"], currentSessionId := some "1" } =
      DownloadResult.album (createAlbumPage (albumImageData
        [("1950s", { status := ImageStatus.done, url := some "u1" }),
         ("1960s", { status := ImageStatus.done, url := some "u2" })])) :=
  (handleDownloadAlbum_guard
    { uploadedImage := some "img", imageAspect := 1,
      generatedImages :=
        [("1950s", { status := ImageStatus.done, url := some "u1" }),
         ("1960s", { status := ImageStatus.done, url := some "u2" })],
      isLoading := false, appState := AppStage.resultsShown,
      selectedDecades := ["1950s", "1960s"], currentSessionId := some "1" }).2
    (by decide)

/-! ## Claims about the history store -/

theorem exists_id_saveHistoryItem_self (db : List HistoryItem) (item : HistoryItem) :
    ∃ e ∈ saveHistoryItem db item, e.id = item.id :=
  ⟨item, List.mem_append_right _ (List.mem_singleton.mpr rfl), rfl⟩

theorem exists_id_saveHistoryItem_mono (db : List HistoryItem) (item : HistoryItem)
    (i : String) (h : ∃ e ∈ db, e.id = i) :
    ∃ e ∈ saveHistoryItem db item, e.id = i := by
  by_cases hit : i = item.id
  · subst hit
    exact exists_id_saveHistoryItem_self db item
  · obtain ⟨e, he, hei⟩ := h
    refine ⟨e, List.mem_append_left _ (List.mem_filter.mpr ⟨he, ?_⟩), hei⟩
    exact bne_iff_ne.mpr (by rw [hei]; exact hit)

theorem foldl_save_preserves (l : List HistoryItem) (db : List HistoryItem)
    (i : String) (h : ∃ e ∈ db, e.id = i) :
    ∃ e ∈ l.foldl saveHistoryItem db, e.id = i := by
  induction l generalizing db with
  | nil => exact h
  | cons x xs ih => exact ih _ (exists_id_saveHistoryItem_mono db x i h)

theorem foldl_save_mem (l : List HistoryItem) (db : List HistoryItem)
    (item : HistoryItem) (h : item ∈ l) :
    ∃ e ∈ l.foldl saveHistoryItem db, e.id = item.id := by
  induction l generalizing db with
  | nil => cases h
  | cons x xs ih =>
    rcases List.mem_cons.mp h with h1 | h2
    · subst h1
      exact foldl_save_preserves xs _ _ (exists_id_saveHistoryItem_self db item)
    · exact ih _ h2

theorem initHistory_idem (s : AppInitState) :
    initHistory (initHistory s) = initHistory s := by
  cases hl : s.legacy with
  | none => simp [initHistory, hl]
  | some items => simp [initHistory, hl]

/-- C6: when a legacy history record exists, `initHistory` saves every
entry of it into the keyed store and removes the legacy copy, and the
migration happens exactly once — a second run of the initialisation
finds no legacy record and changes nothing. -/
theorem initHistory_migration (s : AppInitState) (legacyHistory : List HistoryItem)
    (h : s.legacy = some legacyHistory) :
    (initHistory s).legacy = none ∧
    (∀ item ∈ legacyHistory, ∃ e ∈ (initHistory s).db, e.id = item.id) ∧
    initHistory (initHistory s) = initHistory s := by
  refine ⟨?_, ?_, initHistory_idem s⟩
  · unfold initHistory
    rw [h]
  · intro item hm
    unfold initHistory
    rw [h]
    exact foldl_save_mem legacyHistory s.db item hm

/-- C6 (witness): migration of a concrete one-entry legacy record. -/
theorem initHistory_migration_witness :
    (initHistory sampleInitState).legacy = none ∧
    (∀ item ∈ [sampleItem1], ∃ e ∈ (initHistory sampleInitState).db, e.id = item.id) ∧
    initHistory (initHistory sampleInitState) = initHistory sampleInitState :=
  initHistory_migration sampleInitState [sampleItem1] (by decide)

theorem upsertHistory_single (prev : List HistoryItem) (r : HistoryItem) :
    (upsertHistory prev r).countP (fun it => it.id == r.id) = 1 ∧
    (upsertHistory prev r).find? (fun it => it.id == r.id) = some r := by
  unfold upsertHistory
  rw [List.take_succ_cons]
  constructor
  · rw [List.countP_cons]
    have h0 : (List.take 19 (prev.filter (fun item => item.id != r.id))).countP
        (fun it => it.id == r.id) = 0 := by
      apply Nat.le_zero.mp
      calc (List.take 19 (prev.filter (fun item => item.id != r.id))).countP
              (fun it => it.id == r.id) ≤
            (prev.filter (fun item => item.id != r.id)).countP
              (fun it => it.id == r.id) :=
            (List.take_sublist _ _).countP_le _
        _ = 0 := by
            rw [List.countP_eq_zero]
            intro a ha
            have := (List.mem_filter.mp ha).2
            simpa using bne_iff_ne.mp this
    rw [h0]
    simp
  · rw [List.find?_cons_of_pos]
    simp

/-- C7: the auto-save upsert is idempotent on the session identifier:
saving twice with the same identifier leaves the history list with
exactly one entry carrying that identifier, and that entry is the
latest record. -/
theorem upsertHistory_idem (prev : List HistoryItem) (r1 r2 : HistoryItem)
    (hid : r2.id = r1.id) :
    (upsertHistory (upsertHistory prev r1) r2).countP (fun it => it.id == r2.id) = 1 ∧
    (upsertHistory (upsertHistory prev r1) r2).find? (fun it => it.id == r2.id) =
      some r2 :=
  upsertHistory_single (upsertHistory prev r1) r2

/-- C7 (witness): two saves with the same identifier and different
content, on the empty history. -/
theorem upsertHistory_idem_witness :
    (upsertHistory (upsertHistory [] sampleItem1) sampleItem2).countP
      (fun it => it.id == sampleItem2.id) = 1 ∧
    (upsertHistory (upsertHistory [] sampleItem1) sampleItem2).find?
      (fun it => it.id == sampleItem2.id) = some sampleItem2 :=
  upsertHistory_idem [] sampleItem1 sampleItem2 (by decide)

/-- C3 (witness): the allowed condition instantiated on a concrete log. -/
theorem checkLimit_allowed_iff_witness :
    (checkLimit [0] 1 100 10 5).allowed = true ↔
      ((activeOf [0] 100 (windowMsOf 5)).length : Int) + 1 ≤ 10 :=
  checkLimit_allowed_iff [0] 1 100 10 5

/-- C9 (witness): read-only behaviour on a concrete stored cell. -/
theorem checkLimit_readonly_witness :
    (checkLimitS 1 0 10 5 (some "[0]")).2 = some "[0]" ∧
    (getHistoryS (some "[0]")).2 = some "[0]" ∧
    recordGeneration 1 0 5 none ≠ none :=
  checkLimit_readonly 1 0 10 5 (some "[0]")
